import Mathlib

/-!
Verification of the SSE relay / stream-consumer protocol of the
databricks-genai-app-template repository.

The development shallowly embeds:
* the SSE line parser of `test_frontend_stream.mjs` (the residual-buffer,
  split-on-newline, retain-last-segment algorithm, lines 36-67);
* the relay generator `DatabricksEndpointHandler.invoke_stream` as documented
  in `docs/developer-guide.md` (lines 232-258), with the upstream-failure path
  modelled from the specification;
* the event-folding state machine and `AccumulatedMessage` of the
  specification (the implementing file `ChatView.tsx` is not part of the
  sources at hand);
* the navigation handlers of `client/contexts/NavigationContext.tsx`;
* the memoized configuration loader of `client/src/config.ts`.

Text is modelled as `List Char`; JSON decoding (the JS builtin `JSON.parse`)
is modelled as an abstract partial decoder `List Char → Option J`.
-/

namespace GenAIApp

/-! ## SSE line parser (test_frontend_stream.mjs, lines 36-67) -/

/-- Whitespace as removed by the JS `String.prototype.trim` for the
characters that occur in SSE streams. -/
def isJsSpace (c : Char) : Bool :=
  c == ' ' || c == '\t' || c == '\n' || c == '\r'

/-- JS `line.trim()`: strip leading and trailing whitespace. -/
def jsTrim (l : List Char) : List Char :=
  ((l.dropWhile isJsSpace).reverse.dropWhile isJsSpace).reverse

/-- Processing of one complete line, mirroring the body of the
`for (const line of lines)` loop of `test_frontend_stream.mjs`:
skip blank lines, skip lines without the `data: ` marker, strip the
marker (`line.slice(6)`) and trim, skip an empty payload and the literal
done-sentinel `[DONE]`, then attempt to decode the payload; a decode
failure is logged and skipped.  `d` stands for `JSON.parse` (an
environment builtin), returning `none` exactly when the JS code would
throw.  The returned list holds the event yielded for this line
(zero or one events). -/
def processLine {J : Type} (d : List Char → Option J) (line : List Char) :
    List J :=
  if jsTrim line = [] then []
  else if "data: ".toList.isPrefixOf line = false then []
  else
    let data := jsTrim (line.drop 6)
    if data = [] then []
    else if data = "[DONE]".toList then []
    else
      match d data with
      | some j => [j]
      | none => []

/-- JS `buffer.split('\n')` followed by `buffer = lines.pop()`:
returns the complete lines (all segments before the last newline) and
the residual (the possibly incomplete last segment). -/
def linesAndRest : List Char → List (List Char) × List Char
  | [] => ([], [])
  | c :: cs =>
    let p := linesAndRest cs
    if c = '\n' then (([] : List Char) :: p.1, p.2)
    else
      match p.1 with
      | [] => ([], c :: p.2)
      | l :: ls => ((c :: l) :: ls, p.2)

/-- One iteration of the `while (true)` read loop of
`test_frontend_stream.mjs` for a chunk that arrived: append the chunk to
the residual buffer, split on the line terminator, retain the last
segment as the new buffer, and process every preceding complete line in
order.  The state is (events yielded so far, residual buffer). -/
def feedStep {J : Type} (d : List Char → Option J)
    (st : List J × List Char) (chunk : List Char) : List J × List Char :=
  let p := linesAndRest (st.2 ++ chunk)
  (st.1 ++ p.1.flatMap (processLine d), p.2)

/-- Feeding a whole sequence of chunks to the parser, starting from an
empty residual buffer, exactly as the read loop does until the stream
reports `done` (the trailing residual buffer is never processed). -/
def runChunks {J : Type} (d : List Char → Option J)
    (chunks : List (List Char)) : List J × List Char :=
  chunks.foldl (feedStep d) ([], [])

/-- Serialization of a sequence of lines, each terminated by the line
terminator, as an upstream SSE byte stream would carry them. -/
def serializeLines : List (List Char) → List Char
  | [] => []
  | l :: ls => l ++ '\n' :: serializeLines ls

/-- A character-at-a-time reformulation of the same parser, used as proof
vehicle for chunk-boundary invariance: on a newline, process the buffered
line; otherwise extend the buffer. -/
def charStep {J : Type} (d : List Char → Option J)
    (st : List J × List Char) (c : Char) : List J × List Char :=
  if c = '\n' then (st.1 ++ processLine d st.2, [])
  else (st.1, st.2 ++ [c])

/-- A tiny concrete decoder standing for `JSON.parse` in witnesses: it
accepts the payloads "1" and "2" and rejects everything else. -/
def sampleDecoder (s : List Char) : Option Nat :=
  if s = "1".toList then some 1
  else if s = "2".toList then some 2
  else none

/-! ## Relay: DatabricksEndpointHandler.invoke_stream
(docs/developer-guide.md, lines 232-258) -/

/-- One SSE frame emitted downstream by the relay. -/
inductive RelayFrame : Type
  | traceClientRequestId (id : String)
  | dataLine (line : String)
  | errorFrame (message : String)
deriving DecidableEq, Repr

/-- Outcome of the upstream streaming call: either the sequence of lines
of the upstream body, or a failure (connection error, non-success
status, timeout). -/
inductive UpstreamResult : Type
  | success (lines : List String)
  | failure (err : String)
deriving DecidableEq, Repr

/-- `DatabricksEndpointHandler.invoke_stream` as a function from the
upstream outcome to the ordered list of frames emitted downstream.
The success path follows the generator in the developer guide: the
synthetic `trace.client_request_id` frame is yielded before the upstream
call is even issued, then every upstream line is re-emitted as a
`data:` frame.  Error path modelled from the spec: on upstream failure
(connection error, non-success status, timeout) the relay emits a single
terminal error frame with a distinguishable error event type and then
closes the downstream stream (the Python handler file itself is not
among the sources at hand, only its documented body). -/
def invoke_stream (client_request_id : String) (upstream : UpstreamResult) :
    List RelayFrame :=
  RelayFrame.traceClientRequestId client_request_id ::
    (match upstream with
     | UpstreamResult.success lines => lines.map RelayFrame.dataLine
     | UpstreamResult.failure err => [RelayFrame.errorFrame err])

/-- Recognizer for the terminal error frame. -/
def isErrorFrame : RelayFrame → Bool
  | RelayFrame.errorFrame _ => true
  | _ => false

/-! ## Event-folding state machine and AccumulatedMessage.
Modelled from the spec: sections 3 and 4.3 (the implementing file
`client/components/chat/ChatView.tsx` is not among the sources at hand,
only its description in the developer guide, lines 120-128). -/

/-- Status of the per-stream state machine (spec 4.3). -/
inductive StreamStatus : Type
  | idle
  | awaitingId
  | streaming
  | completed
  | aborted
deriving DecidableEq, Repr

/-- One tool-call record, keyed by the call identifier carried in the
frame payload (spec section 3). -/
structure ToolCallRecord : Type where
  callId : String
  name : String
  arguments : String
  output : Option String
deriving DecidableEq, Repr

/-- The growing assistant reply (spec section 3). -/
structure AccumulatedMessage : Type where
  textContent : String
  toolCalls : List ToolCallRecord
  traceMetadata : Option String
deriving DecidableEq, Repr

/-- Per-stream state: machine status, correlation id, message. -/
structure StreamState : Type where
  status : StreamStatus
  requestId : Option String
  message : AccumulatedMessage
deriving DecidableEq, Repr

/-- Recognized frame shapes of the wire protocol (spec section 6). -/
inductive Frame : Type
  | clientRequestId (id : String)
  | textDelta (text : String)
  | toolCall (callId name arguments : String)
  | toolCallOutput (callId output : String)
  | traceSummary (meta : String)
  | completedFrame
  | errorFrame (message : String)
  | unknown (eventType : String)
deriving DecidableEq, Repr

/-- Modelled from the spec: upsert of a `ToolCallRecord` by call id
(spec 4.3): a later call-frame bearing the same identifier updates the
existing record rather than appending a new one. -/
def upsertCall (ts : List ToolCallRecord) (cid n a : String) :
    List ToolCallRecord :=
  if ts.any (fun r => r.callId == cid) then
    ts.map (fun r =>
      if r.callId == cid then { r with name := n, arguments := a } else r)
  else
    ts ++ [⟨cid, n, a, none⟩]

/-- Modelled from the spec: attaching a tool-call output to the record
with the same call id; if no matching record exists, a new record with
empty arguments is created (defensive merge, not an error). -/
def attachOutput (ts : List ToolCallRecord) (cid out : String) :
    List ToolCallRecord :=
  if ts.any (fun r => r.callId == cid) then
    ts.map (fun r =>
      if r.callId == cid then { r with output := some out } else r)
  else
    ts ++ [⟨cid, "", "", some out⟩]

/-- Modelled from the spec: one step of the event-folding state machine
(spec 4.3).  Completed and Aborted are terminal: further frames are
no-ops.  Deltas append to `textContent`; tool-call frames upsert by call
id; output frames attach by call id; a trace-summary frame sets the
metadata; terminal frames complete the stream; an error frame aborts it;
unrecognized event types are ignored. -/
def foldFrame (s : StreamState) (f : Frame) : StreamState :=
  if s.status = StreamStatus.completed ∨ s.status = StreamStatus.aborted then
    s
  else
    match f with
    | Frame.clientRequestId id =>
      { s with status := StreamStatus.streaming, requestId := some id }
    | Frame.textDelta t =>
      { s with message :=
          { s.message with textContent := s.message.textContent ++ t } }
    | Frame.toolCall cid n a =>
      { s with message :=
          { s.message with toolCalls := upsertCall s.message.toolCalls cid n a } }
    | Frame.toolCallOutput cid out =>
      { s with message :=
          { s.message with toolCalls := attachOutput s.message.toolCalls cid out } }
    | Frame.traceSummary m =>
      { s with message := { s.message with traceMetadata := some m } }
    | Frame.completedFrame => { s with status := StreamStatus.completed }
    | Frame.errorFrame _ => { s with status := StreamStatus.aborted }
    | Frame.unknown _ => s

/-- Folding a whole frame sequence in arrival order. -/
def foldFrames (s : StreamState) (fs : List Frame) : StreamState :=
  fs.foldl foldFrame s

/-- Modelled from the spec: the cancellation-token trigger (spec 4.4 /
4.3): an in-flight stream transitions to Aborted with its partially
accumulated content preserved; an already completed stream is left
alone. -/
def abortStream (s : StreamState) : StreamState :=
  if s.status = StreamStatus.completed then s
  else { s with status := StreamStatus.aborted }

/-- Concatenation of delta fragments in arrival order. -/
def sconcat : List String → String
  | [] => ""
  | t :: ts => t ++ sconcat ts

/-- Folding a sequence of text-delta frames. -/
def foldDeltas (s : StreamState) (ds : List String) : StreamState :=
  foldFrames s (ds.map Frame.textDelta)

/-- A frame bears the given call id (used to say that the frames between
a call-frame and its output-frame leave that record alone). -/
def touchesCallId (cid : String) : Frame → Bool
  | Frame.toolCall c _ _ => c == cid
  | Frame.toolCallOutput c _ => c == cid
  | _ => false

/-- A frame that terminates the state machine. -/
def isTerminalFrame : Frame → Bool
  | Frame.completedFrame => true
  | Frame.errorFrame _ => true
  | _ => false

/-- The records of the message bearing the given call id. -/
def recordsFor (s : StreamState) (cid : String) : List ToolCallRecord :=
  s.message.toolCalls.filter (fun r => r.callId == cid)

/-! ## Navigation handlers (client/contexts/NavigationContext.tsx) -/

/-- One chat entry as built by `fetchChats`. -/
structure Chat : Type where
  id : String
  title : String
  lastMessage : String
  timestamp : Nat
  preview : String
deriving DecidableEq, Repr

/-- A `toast.info(message, { description })` call surfaced to the user. -/
structure ToastMsg : Type where
  message : String
  description : String
deriving DecidableEq, Repr

/-- The NavigationContext state touched by the chat handlers:
`currentChatId`, the chat list, the streaming flag, the sidebar-open
flag, and the route pushed via `router.push` (`navigateTo`). -/
structure NavState : Type where
  currentChatId : Option String
  chats : List Chat
  isStreaming : Bool
  isSidebarOpen : Bool
  route : String
deriving DecidableEq, Repr

/-- `handleNewChat` (NavigationContext.tsx, lines 156-166): while a
stream is active, surface a toast notice and return without touching any
state; otherwise clear `currentChatId` and navigate to the chat tab.
The returned list holds the toasts surfaced by the call. -/
def handleNewChat (s : NavState) : NavState × List ToastMsg :=
  if s.isStreaming then
    (s, [⟨"Please wait for the current response to complete",
          "You can start a new chat once the response finishes"⟩])
  else
    ({ s with currentChatId := none, route := "/chat" }, [])

/-- `handleChatSelect` (NavigationContext.tsx, lines 168-183): while a
stream is active, surface a toast notice and return without touching any
state; otherwise select the chat, navigate to the chat tab, and close
the sidebar on narrow viewports (`window.innerWidth < 1024`). -/
def handleChatSelect (innerWidth : Nat) (s : NavState) (chatId : String) :
    NavState × List ToastMsg :=
  if s.isStreaming then
    (s, [⟨"Please wait for the current response to complete",
          "You can switch chats once the response finishes"⟩])
  else
    ({ s with
        currentChatId := some chatId,
        route := "/chat",
        isSidebarOpen := if innerWidth < 1024 then false else s.isSidebarOpen },
     [])

/-! ## Config loader (client/src/config.ts) -/

/-- Endpoint kind of an `AppConfig` entry. -/
inductive EndpointType : Type
  | openaiChat
  | databricksAgent
deriving DecidableEq, Repr

/-- One configured endpoint. -/
structure Endpoint : Type where
  displayName : String
  endpointName : String
  etype : EndpointType
deriving DecidableEq, Repr

/-- The runtime application configuration. -/
structure AppConfig : Type where
  endpoints : List Endpoint
  apiBaseUrl : Option String
deriving DecidableEq, Repr

/-- The hardcoded fallback `DEFAULT_CONFIG` of config.ts. -/
def DEFAULT_CONFIG : AppConfig :=
  { endpoints :=
      [ { displayName := "Sonnet 4",
          endpointName := "databricks-claude-sonnet-4",
          etype := EndpointType.openaiChat },
        { displayName := "mas_mehdi_genai_demo",
          endpointName := "mas-367ff95f-endpoint",
          etype := EndpointType.databricksAgent } ],
    apiBaseUrl := some "http://localhost:8001/api" }

/-- Outcome of the `fetch("/app_config.json")` call: a successful
response carrying a parsed config, a non-ok response, or a thrown
error. -/
inductive FetchResult : Type
  | ok (cfg : AppConfig)
  | notOk
  | thrown
deriving DecidableEq, Repr

/-- Result of one `loadConfig` call: the resolved config, the new value
of the module-level `cachedConfig`, and whether a fetch was issued. -/
structure LoadOutcome : Type where
  result : AppConfig
  cache : Option AppConfig
  fetched : Bool
deriving DecidableEq, Repr

/-- `loadConfig` (config.ts, lines 44-72): return the cached config
without fetching if one is present; otherwise fetch `app_config.json`
and cache the parsed config on an ok response, or cache and return
`DEFAULT_CONFIG` on a non-ok response or a thrown fetch error. -/
def loadConfig (cached : Option AppConfig) (fetch : FetchResult) :
    LoadOutcome :=
  match cached with
  | some c => ⟨c, some c, false⟩
  | none =>
    match fetch with
    | FetchResult.ok cfg => ⟨cfg, some cfg, true⟩
    | FetchResult.notOk => ⟨DEFAULT_CONFIG, some DEFAULT_CONFIG, true⟩
    | FetchResult.thrown => ⟨DEFAULT_CONFIG, some DEFAULT_CONFIG, true⟩

/-- `getConfig` (config.ts, lines 77-82): return the cached config, or
throw if `loadConfig` has not completed yet. -/
def getConfig (cached : Option AppConfig) : Except String AppConfig :=
  match cached with
  | none => Except.error "Config not loaded yet. Call loadConfig() first."
  | some c => Except.ok c

/-- `resetConfig` (config.ts, lines 87-89): clear the cache. -/
def resetConfig (_cached : Option AppConfig) : Option AppConfig := none

/-! ## Parser lemmas -/

/-- A newline-free buffer holds no complete line: split-and-pop leaves it
as the residual. -/
theorem linesAndRest_of_not_mem {buf : List Char}
    (h : ('\n' : Char) ∉ buf) : linesAndRest buf = ([], buf) := by
  induction buf with
  | nil => rfl
  | cons c cs ih =>
    have hc : ¬ c = '\n' := fun hEq => h (hEq ▸ List.mem_cons_self c cs)
    have hcs : ('\n' : Char) ∉ cs := fun hm => h (List.mem_cons_of_mem _ hm)
    simp [linesAndRest, ih hcs, hc]

/-- Splitting a buffer made of a newline-free segment, a newline, and a
rest: the segment becomes the first complete line. -/
theorem linesAndRest_append_newline {buf : List Char} (cs : List Char)
    (h : ('\n' : Char) ∉ buf) :
    linesAndRest (buf ++ '\n' :: cs) =
      (buf :: (linesAndRest cs).1, (linesAndRest cs).2) := by
  induction buf with
  | nil => simp [linesAndRest]
  | cons c l ih =>
    have hc : ¬ c = '\n' := fun hEq => h (hEq ▸ List.mem_cons_self c l)
    have hl : ('\n' : Char) ∉ l := fun hm => h (List.mem_cons_of_mem _ hm)
    simp [linesAndRest, ih hl, hc]

/-- The residual buffer left by split-and-pop never contains a
newline. -/
theorem residual_not_newline (s : List Char) :
    ('\n' : Char) ∉ (linesAndRest s).2 := by
  induction s with
  | nil => simp [linesAndRest]
  | cons c cs ih =>
    by_cases hc : c = '\n'
    · simpa [linesAndRest, hc] using ih
    · cases h1 : (linesAndRest cs).1 with
      | nil =>
        simp only [linesAndRest, h1, if_neg hc]
        intro hm
        rcases List.mem_cons.mp hm with h | h
        · exact hc h.symm
        · exact ih h
      | cons l ls => simpa [linesAndRest, hc, h1] using ih

/-- The chunk-buffered step coincides with the character-at-a-time
reformulation, for any newline-free starting buffer. -/
theorem foldl_charStep_eq {J : Type} (d : List Char → Option J) :
    ∀ (chunk : List Char) (acc : List J) (buf : List Char),
      ('\n' : Char) ∉ buf →
      chunk.foldl (charStep d) (acc, buf) = feedStep d (acc, buf) chunk := by
  intro chunk
  induction chunk with
  | nil =>
    intro acc buf h
    simp [feedStep, linesAndRest_of_not_mem h]
  | cons c cs ih =>
    intro acc buf h
    by_cases hc : c = '\n'
    · subst hc
      rw [List.foldl_cons]
      have hstep : charStep d (acc, buf) '\n' = (acc ++ processLine d buf, []) := by
        simp [charStep]
      rw [hstep, ih _ [] (by simp)]
      simp [feedStep, linesAndRest_append_newline cs h, List.append_assoc]
    · rw [List.foldl_cons]
      have hstep : charStep d (acc, buf) c = (acc, buf ++ [c]) := by
        simp [charStep, hc]
      have hbc : ('\n' : Char) ∉ buf ++ [c] := by
        intro hm
        rcases List.mem_append.mp hm with h' | h'
        · exact h h'
        · exact hc (List.mem_singleton.mp h').symm
      rw [hstep, ih acc (buf ++ [c]) hbc]
      simp [feedStep, List.append_assoc]

/-- Running the read loop over a chunk list equals folding the
character-at-a-time step over the concatenation of the chunks. -/
theorem foldl_feedStep_eq_charFold {J : Type} (d : List Char → Option J) :
    ∀ (chunks : List (List Char)) (acc : List J) (buf : List Char),
      ('\n' : Char) ∉ buf →
      chunks.foldl (feedStep d) (acc, buf) =
        chunks.flatten.foldl (charStep d) (acc, buf) := by
  intro chunks
  induction chunks with
  | nil => intro acc buf _; rfl
  | cons c cs ih =>
    intro acc buf h
    rw [List.foldl_cons, List.flatten_cons, List.foldl_append,
      ← foldl_charStep_eq d c acc buf h]
    have hres : ('\n' : Char) ∉ (c.foldl (charStep d) (acc, buf)).2 := by
      rw [foldl_charStep_eq d c acc buf h]
      exact residual_not_newline (buf ++ c)
    calc cs.foldl (feedStep d) (c.foldl (charStep d) (acc, buf))
        = cs.foldl (feedStep d)
            ((c.foldl (charStep d) (acc, buf)).1,
             (c.foldl (charStep d) (acc, buf)).2) := rfl
      _ = cs.flatten.foldl (charStep d)
            ((c.foldl (charStep d) (acc, buf)).1,
             (c.foldl (charStep d) (acc, buf)).2) :=
          ih _ _ hres
      _ = cs.flatten.foldl (charStep d) (c.foldl (charStep d) (acc, buf)) := rfl

/-- Serializing newline-free lines and splitting them back recovers the
lines with an empty residual. -/
theorem linesAndRest_serializeLines (ls : List (List Char))
    (h : ∀ l ∈ ls, ('\n' : Char) ∉ l) :
    linesAndRest (serializeLines ls) = (ls, []) := by
  induction ls with
  | nil => rfl
  | cons l ls ih =>
    have hl : ('\n' : Char) ∉ l := h l (List.mem_cons_self l ls)
    have hls : ∀ x ∈ ls, ('\n' : Char) ∉ x := fun x hx =>
      h x (List.mem_cons_of_mem _ hx)
    show linesAndRest (l ++ '\n' :: serializeLines ls) = _
    rw [linesAndRest_append_newline _ hl, ih hls]

/-- Feeding the serialization of newline-free lines as one chunk yields
exactly the per-line events, in order, and an empty residual. -/
theorem runChunks_serializeLines {J : Type} (d : List Char → Option J)
    (ls : List (List Char)) (h : ∀ l ∈ ls, ('\n' : Char) ∉ l) :
    runChunks d [serializeLines ls] = (ls.flatMap (processLine d), []) := by
  unfold runChunks
  rw [List.foldl_cons, List.foldl_nil]
  show feedStep d ([], []) (serializeLines ls) = _
  simp [feedStep, linesAndRest_serializeLines ls h]

/-- Claim C2: for every decoder, every chunk sequence fed one chunk at a
time to the residual-buffer, split-on-newline, retain-last-segment
parser of `test_frontend_stream.mjs` yields exactly the same events (and
the same final residual buffer) as feeding the whole concatenation as a
single chunk.  In particular any valid SSE frame sequence split at
arbitrary offsets into N chunks reassembles to the same ordered frame
sequence as the unsplit stream. -/
theorem parser_chunk_split_invariance {J : Type} (d : List Char → Option J)
    (chunks : List (List Char)) :
    runChunks d chunks = runChunks d [chunks.flatten] := by
  unfold runChunks
  rw [foldl_feedStep_eq_charFold d chunks [] [] (by simp),
    List.foldl_cons, List.foldl_nil,
    ← foldl_charStep_eq d chunks.flatten [] [] (by simp)]

/-- A list containing a non-whitespace character does not trim to
empty. -/
theorem jsTrim_ne_nil_of_mem {x : List Char} {c : Char} (hc : c ∈ x)
    (hns : isJsSpace c = false) : jsTrim x ≠ [] := by
  intro hEq
  unfold jsTrim at hEq
  have h1 : (x.dropWhile isJsSpace).reverse.dropWhile isJsSpace = [] :=
    List.reverse_eq_nil_iff.mp hEq
  have hc1 : c ∈ x.dropWhile isJsSpace := by
    have hx : c ∈ x.takeWhile isJsSpace ++ x.dropWhile isJsSpace := by
      rw [List.takeWhile_append_dropWhile]; exact hc
    rcases List.mem_append.mp hx with h | h
    · exact absurd (List.mem_takeWhile_imp h) (by simp [hns])
    · exact h
  have hc2 : c ∈ (x.dropWhile isJsSpace).reverse := List.mem_reverse.mpr hc1
  have hall := List.dropWhile_eq_nil_iff.mp h1
  exact absurd (hall c hc2) (by simp [hns])

/-- A complete `data:` line whose trimmed payload is the done-sentinel
yields no event: the parser of `test_frontend_stream.mjs` skips it with
`continue`. -/
theorem processLine_done {J : Type} (d : List Char → Option J)
    {l : List Char}
    (h2 : "data: ".toList.isPrefixOf l = true)
    (h3 : jsTrim (l.drop 6) = "[DONE]".toList) :
    processLine d l = [] := by
  obtain ⟨rest, hrest⟩ := List.isPrefixOf_iff_prefix.mp h2
  have hd : ('d' : Char) ∈ l := by
    rw [← hrest]; exact List.mem_append_left _ (by decide)
  have hne : jsTrim l ≠ [] := jsTrim_ne_nil_of_mem hd (by decide)
  simp [processLine, hne, h2, h3]

/-- A line whose payload fails decoding yields no event: the `catch`
branch logs and continues. -/
theorem processLine_of_decode_none {J : Type} (d : List Char → Option J)
    {l : List Char} (h : d (jsTrim (l.drop 6)) = none) :
    processLine d l = [] := by
  unfold processLine
  split
  · rfl
  split
  · rfl
  simp [h]

/-- Claim C3 counterexample: on the stream "data: 1", "data: [DONE]",
"data: 2", the parser yields the frame decoded from the line after the
done-sentinel (and no terminal-frame marker): the sentinel does not stop
processing of later lines. -/
theorem parser_done_sentinel_cex :
    (runChunks sampleDecoder
      ["data: 1\ndata: [DONE]\ndata: 2\n".toList]).1 = [1, 2] ∧
    2 ∈ (runChunks sampleDecoder
      ["data: 1\ndata: [DONE]\ndata: 2\n".toList]).1 := by
  constructor
  · decide
  · decide

/-- Claim C3 (amended): a complete `data:` line whose trimmed payload
equals the literal done-sentinel `[DONE]` yields no frame and no
terminal marker, and the parser continues processing every later line
unchanged: the events of the whole stream are the events of the lines
before the sentinel followed by the events of the lines after it. -/
theorem parser_done_sentinel_skipped {J : Type} (d : List Char → Option J)
    (ls1 ls2 : List (List Char)) (l : List Char)
    (h0 : ∀ x ∈ ls1 ++ l :: ls2, ('\n' : Char) ∉ x)
    (h2 : "data: ".toList.isPrefixOf l = true)
    (h3 : jsTrim (l.drop 6) = "[DONE]".toList) :
    (runChunks d [serializeLines (ls1 ++ l :: ls2)]).1 =
      (runChunks d [serializeLines ls1]).1 ++
        (runChunks d [serializeLines ls2]).1 := by
  have hls1 : ∀ x ∈ ls1, ('\n' : Char) ∉ x := fun x hx =>
    h0 x (List.mem_append_left _ hx)
  have hls2 : ∀ x ∈ ls2, ('\n' : Char) ∉ x := fun x hx =>
    h0 x (List.mem_append_right _ (List.mem_cons_of_mem _ hx))
  rw [runChunks_serializeLines d _ h0, runChunks_serializeLines d _ hls1,
    runChunks_serializeLines d _ hls2]
  simp [processLine_done d h2 h3]

/-- Witness for the amended claim C3 at a concrete stream. -/
theorem parser_done_sentinel_skipped_witness :
    (runChunks sampleDecoder
      [serializeLines
        (["data: 1".toList] ++ "data: [DONE]".toList :: ["data: 2".toList])]).1 =
      (runChunks sampleDecoder [serializeLines ["data: 1".toList]]).1 ++
        (runChunks sampleDecoder [serializeLines ["data: 2".toList]]).1 :=
  parser_done_sentinel_skipped sampleDecoder ["data: 1".toList]
    ["data: 2".toList] "data: [DONE]".toList (by decide) (by decide)
    (by decide)

/-- Claim C4: a stream whose middle line fails payload decoding between
two decodable lines still yields both surrounding frames, in order, and
no frame for the malformed line: a single malformed frame does not abort
the stream. -/
theorem parser_malformed_line_resilience {J : Type}
    (d : List Char → Option J) (l1 l2 l3 : List Char) (j1 j3 : J)
    (hn1 : ('\n' : Char) ∉ l1) (hn2 : ('\n' : Char) ∉ l2)
    (hn3 : ('\n' : Char) ∉ l3)
    (h1 : processLine d l1 = [j1])
    (h2 : d (jsTrim (l2.drop 6)) = none)
    (h3 : processLine d l3 = [j3]) :
    (runChunks d [serializeLines [l1, l2, l3]]).1 = [j1, j3] := by
  have hall : ∀ x ∈ [l1, l2, l3], ('\n' : Char) ∉ x := by
    intro x hx
    rcases List.mem_cons.mp hx with rfl | hx
    · exact hn1
    rcases List.mem_cons.mp hx with rfl | hx
    · exact hn2
    rcases List.mem_cons.mp hx with rfl | hx
    · exact hn3
    exact absurd hx (List.not_mem_nil x)
  rw [runChunks_serializeLines d _ hall]
  simp [h1, h3, processLine_of_decode_none d h2]

/-- Witness for claim C4 at a concrete stream with an undecodable middle
line. -/
theorem parser_malformed_line_resilience_witness :
    (runChunks sampleDecoder
      [serializeLines
        ["data: 1".toList, "data: oops".toList, "data: 2".toList]]).1 =
      [1, 2] :=
  parser_malformed_line_resilience sampleDecoder "data: 1".toList
    "data: oops".toList "data: 2".toList 1 2 (by decide) (by decide)
    (by decide) (by decide) (by decide) (by decide)

/-! ## Relay theorems -/

/-- Claim C1: for every correlation id and every upstream outcome,
successful or failed, the first frame `invoke_stream` emits downstream
is the synthetic `trace.client_request_id` frame: it precedes every
frame forwarded from the upstream stream. -/
theorem relay_first_frame_invariant (id : String) (up : UpstreamResult) :
    (invoke_stream id up).head? =
      some (RelayFrame.traceClientRequestId id) := rfl

/-- Claim C5: on every upstream failure the relay emits exactly one
error frame, and that error frame is the last frame emitted before the
downstream stream closes: the client is always informed before the
connection ends. -/
theorem relay_upstream_failure_single_error_frame (id err : String) :
    ((invoke_stream id (UpstreamResult.failure err)).filter
      isErrorFrame).length = 1 ∧
    (invoke_stream id (UpstreamResult.failure err)).getLast? =
      some (RelayFrame.errorFrame err) := by
  exact ⟨rfl, rfl⟩

/-! ## Event-folding theorems -/

/-- Folding one text delta in a streaming state appends the fragment. -/
theorem foldFrame_textDelta {s : StreamState}
    (h : s.status = StreamStatus.streaming) (t : String) :
    foldFrame s (Frame.textDelta t) =
      { s with message :=
          { s.message with textContent := s.message.textContent ++ t } } := by
  simp [foldFrame, h]

/-- Folding a sequence of deltas from a streaming state: the text grows
by the concatenation in arrival order and the status stays streaming. -/
theorem foldDeltas_spec :
    ∀ (ds : List String) (s : StreamState),
      s.status = StreamStatus.streaming →
      (foldDeltas s ds).message.textContent =
          s.message.textContent ++ sconcat ds ∧
        (foldDeltas s ds).status = StreamStatus.streaming := by
  intro ds
  induction ds with
  | nil =>
    intro s h
    refine ⟨?_, h⟩
    simp [foldDeltas, foldFrames, sconcat]
  | cons t ts ih =>
    intro s h
    have hstep := foldFrame_textDelta h t
    have hnext :
        foldDeltas s (t :: ts) =
          foldDeltas
            { s with message :=
                { s.message with textContent := s.message.textContent ++ t } }
            ts := by
      simp [foldDeltas, foldFrames, hstep]
    obtain ⟨h1, h2⟩ := ih
      { s with message :=
          { s.message with textContent := s.message.textContent ++ t } }
      h
    rw [hnext]
    refine ⟨?_, h2⟩
    rw [h1]
    simp [sconcat, String.append_assoc]

/-- Claim C7: folding any finite sequence of text-delta frames into the
accumulated message yields a `textContent` equal to the previous content
followed by the concatenation of the delta fragments in arrival order:
accumulation is append-only and order-preserving. -/
theorem accumulate_text_deltas (s : StreamState) (ds : List String)
    (h : s.status = StreamStatus.streaming) :
    (foldDeltas s ds).message.textContent =
      s.message.textContent ++ sconcat ds :=
  (foldDeltas_spec ds s h).1

/-- Witness for claim C7: the deltas "Hello", ", ", "world" delivered in
three frames accumulate to exactly "Hello, world". -/
theorem accumulate_text_deltas_witness :
    (foldDeltas ⟨StreamStatus.streaming, none, ⟨"", [], none⟩⟩
      ["Hello", ", ", "world"]).message.textContent = "Hello, world" := by
  rw [accumulate_text_deltas ⟨StreamStatus.streaming, none, ⟨"", [], none⟩⟩
    ["Hello", ", ", "world"] rfl]
  decide

/-- A record map that preserves call ids commutes with filtering by a
call id. -/
theorem filter_callId_map {g : ToolCallRecord → ToolCallRecord}
    (hg : ∀ r, (g r).callId = r.callId) (cid : String) :
    ∀ ts : List ToolCallRecord,
      (ts.map g).filter (fun r => r.callId == cid) =
        (ts.filter (fun r => r.callId == cid)).map g := by
  intro ts
  induction ts with
  | nil => rfl
  | cons r ts ih => simp [List.filter_cons, hg, ih, apply_ite]

/-- The update applied by `upsertCall` preserves call ids. -/
theorem upsert_update_callId (cid n a : String) (r : ToolCallRecord) :
    ((fun r : ToolCallRecord =>
        if r.callId == cid then { r with name := n, arguments := a }
        else r) r).callId = r.callId := by
  by_cases h : r.callId == cid <;> simp [h]

/-- The update applied by `attachOutput` preserves call ids. -/
theorem attach_update_callId (cid out : String) (r : ToolCallRecord) :
    ((fun r : ToolCallRecord =>
        if r.callId == cid then { r with output := some out }
        else r) r).callId = r.callId := by
  by_cases h : r.callId == cid <;> simp [h]

/-- A frame that neither bears the given call id nor terminates the
stream leaves the records for that call id, and the streaming status,
unchanged. -/
theorem foldFrame_untouched {cid : String} {s : StreamState} {f : Frame}
    (hs : s.status = StreamStatus.streaming)
    (ht : touchesCallId cid f = false)
    (hterm : isTerminalFrame f = false) :
    (foldFrame s f).status = StreamStatus.streaming ∧
    recordsFor (foldFrame s f) cid = recordsFor s cid := by
  cases f with
  | clientRequestId id => simp [foldFrame, hs, recordsFor]
  | textDelta t => simp [foldFrame, hs, recordsFor]
  | toolCall c n a =>
    have hne : (c == cid) = false := by simpa [touchesCallId] using ht
    have hcne : c ≠ cid := by simpa using hne
    refine ⟨by simp [foldFrame, hs], ?_⟩
    simp only [foldFrame, hs]
    simp only [recordsFor]
    show (upsertCall s.message.toolCalls c n a).filter
        (fun r => r.callId == cid) = _
    unfold upsertCall
    split
    · rw [filter_callId_map (upsert_update_callId c n a) cid]
      have hfix : ∀ r ∈ s.message.toolCalls.filter
          (fun r => r.callId == cid),
          (fun r : ToolCallRecord =>
            if r.callId == c then { r with name := n, arguments := a }
            else r) r = r := by
        intro r hr
        have hrc : r.callId = cid := by
          simpa using List.of_mem_filter hr
        have : (r.callId == c) = false := by
          rw [hrc]
          exact beq_eq_false_iff_ne.mpr (Ne.symm hcne)
        simp [this]
      rw [List.map_congr_left hfix]
      simp
    · rw [List.filter_append]
      simp [hne]
  | toolCallOutput c out =>
    have hne : (c == cid) = false := by simpa [touchesCallId] using ht
    have hcne : c ≠ cid := by simpa using hne
    refine ⟨by simp [foldFrame, hs], ?_⟩
    simp only [foldFrame, hs]
    simp only [recordsFor]
    show (attachOutput s.message.toolCalls c out).filter
        (fun r => r.callId == cid) = _
    unfold attachOutput
    split
    · rw [filter_callId_map (attach_update_callId c out) cid]
      have hfix : ∀ r ∈ s.message.toolCalls.filter
          (fun r => r.callId == cid),
          (fun r : ToolCallRecord =>
            if r.callId == c then { r with output := some out }
            else r) r = r := by
        intro r hr
        have hrc : r.callId = cid := by
          simpa using List.of_mem_filter hr
        have : (r.callId == c) = false := by
          rw [hrc]
          exact beq_eq_false_iff_ne.mpr (Ne.symm hcne)
        simp [this]
      rw [List.map_congr_left hfix]
      simp
    · rw [List.filter_append]
      simp [hne]
  | traceSummary m => simp [foldFrame, hs, recordsFor]
  | completedFrame => simp [isTerminalFrame] at hterm
  | errorFrame e => simp [isTerminalFrame] at hterm
  | unknown t => simp [foldFrame, hs, recordsFor]

/-- Extension of the previous lemma to a whole frame sequence. -/
theorem foldFrames_untouched {cid : String} :
    ∀ (fs : List Frame) (s : StreamState),
      s.status = StreamStatus.streaming →
      (∀ f ∈ fs, touchesCallId cid f = false ∧ isTerminalFrame f = false) →
      (foldFrames s fs).status = StreamStatus.streaming ∧
      recordsFor (foldFrames s fs) cid = recordsFor s cid := by
  intro fs
  induction fs with
  | nil => intro s hs _; exact ⟨hs, rfl⟩
  | cons f fs ih =>
    intro s hs hall
    obtain ⟨ht, hterm⟩ := hall f (List.mem_cons_self f fs)
    obtain ⟨h1, h2⟩ := foldFrame_untouched hs ht hterm
    have hrest : ∀ g ∈ fs, touchesCallId cid g = false ∧
        isTerminalFrame g = false := fun g hg =>
      hall g (List.mem_cons_of_mem _ hg)
    obtain ⟨h3, h4⟩ := ih (foldFrame s f) h1 hrest
    exact ⟨h3, by
      show recordsFor (foldFrames (foldFrame s f) fs) cid = _
      rw [h4, h2]⟩

/-- Folding a cons: the head frame is processed first. -/
theorem foldFrames_cons (s : StreamState) (f : Frame) (fs : List Frame) :
    foldFrames s (f :: fs) = foldFrames (foldFrame s f) fs := rfl

/-- Folding a concatenation: the first block is processed first. -/
theorem foldFrames_append (s : StreamState) (fs1 fs2 : List Frame) :
    foldFrames s (fs1 ++ fs2) = foldFrames (foldFrames s fs1) fs2 :=
  List.foldl_append foldFrame s fs1 fs2

/-- Folding a single frame. -/
theorem foldFrames_singleton (s : StreamState) (f : Frame) :
    foldFrames s [f] = foldFrame s f := rfl

/-- No record of the list bears the call id: `any` is false and the
filter is empty. -/
theorem no_record_any_false {cid : String} {ts : List ToolCallRecord}
    (h : ∀ r ∈ ts, r.callId ≠ cid) :
    ts.any (fun r => r.callId == cid) = false ∧
    ts.filter (fun r => r.callId == cid) = [] := by
  constructor
  · rw [Bool.eq_false_iff]
    intro hany
    obtain ⟨r, hr, hbeq⟩ := List.any_eq_true.mp hany
    exact h r hr (by simpa using hbeq)
  · rw [List.filter_eq_nil_iff]
    intro r hr
    simp [h r hr]

/-- Claim C8 (spec-modelled): a tool-call frame with a fresh call id
followed, after any frames that neither bear that id nor terminate the
stream, by an output frame with the same id leaves exactly one record
for that id carrying both the call arguments and the output; and an
output frame whose call id matches no record creates a new record with
empty arguments instead of failing. -/
theorem tool_call_merge (s : StreamState) (cid n a out : String)
    (mid : List Frame)
    (hs : s.status = StreamStatus.streaming)
    (hnone : ∀ r ∈ s.message.toolCalls, r.callId ≠ cid)
    (hmid : ∀ f ∈ mid, touchesCallId cid f = false ∧
      isTerminalFrame f = false)
    (s2 : StreamState) (cid2 out2 : String)
    (hs2 : s2.status = StreamStatus.streaming)
    (hnone2 : ∀ r ∈ s2.message.toolCalls, r.callId ≠ cid2) :
    recordsFor
        (foldFrames s
          (Frame.toolCall cid n a :: mid ++ [Frame.toolCallOutput cid out]))
        cid = [⟨cid, n, a, some out⟩] ∧
    (foldFrame s2 (Frame.toolCallOutput cid2 out2)).message.toolCalls =
      s2.message.toolCalls ++ [⟨cid2, "", "", some out2⟩] := by
  obtain ⟨hany, hfil⟩ := no_record_any_false hnone
  obtain ⟨hany2, _⟩ := no_record_any_false hnone2
  constructor
  · have hstep1 : foldFrame s (Frame.toolCall cid n a) =
        { s with message :=
            { s.message with toolCalls :=
                s.message.toolCalls ++ [⟨cid, n, a, none⟩] } } := by
      simp [foldFrame, hs, upsertCall, hany]
    have hrec1 : recordsFor (foldFrame s (Frame.toolCall cid n a)) cid =
        [⟨cid, n, a, none⟩] := by
      rw [hstep1]
      show List.filter (fun r => r.callId == cid)
          (s.message.toolCalls ++ [(⟨cid, n, a, none⟩ : ToolCallRecord)]) = _
      rw [List.filter_append, hfil]
      simp
    have hstat1 : (foldFrame s (Frame.toolCall cid n a)).status =
        StreamStatus.streaming := by
      simp [foldFrame, hs]
    rw [foldFrames_append, foldFrames_singleton, foldFrames_cons]
    obtain ⟨hstatm, hrecm⟩ :=
      foldFrames_untouched mid (foldFrame s (Frame.toolCall cid n a))
        hstat1 hmid
    have hrecm' : recordsFor
        (foldFrames (foldFrame s (Frame.toolCall cid n a)) mid) cid =
        [⟨cid, n, a, none⟩] := by rw [hrecm, hrec1]
    generalize hgen :
      foldFrames (foldFrame s (Frame.toolCall cid n a)) mid = smid
        at hstatm hrecm' ⊢
    have hfil2 : smid.message.toolCalls.filter (fun r => r.callId == cid) =
        [(⟨cid, n, a, none⟩ : ToolCallRecord)] := hrecm'
    have hmem : (⟨cid, n, a, none⟩ : ToolCallRecord) ∈
        smid.message.toolCalls := by
      have hx : (⟨cid, n, a, none⟩ : ToolCallRecord) ∈
          smid.message.toolCalls.filter (fun r => r.callId == cid) := by
        rw [hfil2]
        exact List.mem_singleton.mpr rfl
      exact List.mem_of_mem_filter hx
    have hanym : smid.message.toolCalls.any
        (fun r => r.callId == cid) = true := by
      rw [List.any_eq_true]
      exact ⟨⟨cid, n, a, none⟩, hmem, by simp⟩
    have hstepOut : foldFrame smid (Frame.toolCallOutput cid out) =
        { smid with message :=
            { smid.message with toolCalls :=
                smid.message.toolCalls.map (fun r =>
                  if r.callId == cid then { r with output := some out }
                  else r) } } := by
      simp [foldFrame, hstatm, attachOutput, hanym]
    rw [hstepOut]
    simp only [recordsFor]
    rw [filter_callId_map (attach_update_callId cid out) cid, hfil2]
    simp
  · simp [foldFrame, hs2, attachOutput, hany2]

/-- Witness for claim C8: a call frame for "c1", an unrelated delta, the
matching output frame; and an output frame for an unknown id "c9". -/
theorem tool_call_merge_witness :
    recordsFor
        (foldFrames ⟨StreamStatus.streaming, none, ⟨"", [], none⟩⟩
          (Frame.toolCall "c1" "lookup" "args" ::
            [Frame.textDelta "hi"] ++ [Frame.toolCallOutput "c1" "result"]))
        "c1" = [⟨"c1", "lookup", "args", some "result"⟩] ∧
    (foldFrame ⟨StreamStatus.streaming, none, ⟨"", [], none⟩⟩
        (Frame.toolCallOutput "c9" "out9")).message.toolCalls =
      ([] : List ToolCallRecord) ++ [⟨"c9", "", "", some "out9"⟩] :=
  tool_call_merge ⟨StreamStatus.streaming, none, ⟨"", [], none⟩⟩
    "c1" "lookup" "args" "result" [Frame.textDelta "hi"] rfl
    (by simp) (by decide)
    ⟨StreamStatus.streaming, none, ⟨"", [], none⟩⟩ "c9" "out9" rfl
    (by simp)

/-- A terminal state absorbs every further frame. -/
theorem foldFrames_terminal {s : StreamState}
    (h : s.status = StreamStatus.completed ∨
      s.status = StreamStatus.aborted) :
    ∀ fs : List Frame, foldFrames s fs = s := by
  intro fs
  induction fs with
  | nil => rfl
  | cons f fs ih =>
    show foldFrames (foldFrame s f) fs = s
    rw [show foldFrame s f = s from by simp [foldFrame, h], ih]

/-- Cancellation keeps the message intact. -/
theorem abortStream_message (s : StreamState) :
    (abortStream s).message = s.message := by
  unfold abortStream
  split <;> rfl

/-- Claim C9 (spec-modelled): a terminal state (Completed or Aborted) is
never mutated by further frames, and cancelling after two of five deltas
leaves the concatenation of exactly those two deltas with status
Aborted, untouched by any frames decoded from bytes still buffered. -/
theorem stream_terminal_no_mutation (s' : StreamState) (fs : List Frame)
    (hterm : s'.status = StreamStatus.completed ∨
      s'.status = StreamStatus.aborted)
    (s : StreamState) (t1 t2 : String) (rest : List Frame)
    (hs : s.status = StreamStatus.streaming) :
    foldFrames s' fs = s' ∧
    foldFrames (abortStream (foldDeltas s [t1, t2])) rest =
      abortStream (foldDeltas s [t1, t2]) ∧
    (abortStream (foldDeltas s [t1, t2])).message.textContent =
      s.message.textContent ++ sconcat [t1, t2] ∧
    (abortStream (foldDeltas s [t1, t2])).status = StreamStatus.aborted := by
  obtain ⟨htext, hstat⟩ := foldDeltas_spec [t1, t2] s hs
  have hstatAb : (abortStream (foldDeltas s [t1, t2])).status =
      StreamStatus.aborted := by
    unfold abortStream
    rw [if_neg (by rw [hstat]; intro h; exact StreamStatus.noConfusion h)]
  refine ⟨foldFrames_terminal hterm fs, ?_, ?_, hstatAb⟩
  · exact foldFrames_terminal (Or.inr hstatAb) rest
  · rw [abortStream_message, htext]

/-- Witness for claim C9: a completed state absorbs a further delta, and
cancellation after the deltas "He", "llo" preserves exactly "Hello" with
status Aborted even when more frames are folded afterwards. -/
theorem stream_terminal_no_mutation_witness :
    foldFrames ⟨StreamStatus.completed, none, ⟨"done", [], none⟩⟩
        [Frame.textDelta "x"] =
      ⟨StreamStatus.completed, none, ⟨"done", [], none⟩⟩ ∧
    foldFrames
        (abortStream
          (foldDeltas ⟨StreamStatus.streaming, none, ⟨"", [], none⟩⟩
            ["He", "llo"]))
        [Frame.textDelta "more", Frame.completedFrame] =
      abortStream
        (foldDeltas ⟨StreamStatus.streaming, none, ⟨"", [], none⟩⟩
          ["He", "llo"]) ∧
    (abortStream
        (foldDeltas ⟨StreamStatus.streaming, none, ⟨"", [], none⟩⟩
          ["He", "llo"])).message.textContent =
      "" ++ sconcat ["He", "llo"] ∧
    (abortStream
        (foldDeltas ⟨StreamStatus.streaming, none, ⟨"", [], none⟩⟩
          ["He", "llo"])).status = StreamStatus.aborted :=
  stream_terminal_no_mutation
    ⟨StreamStatus.completed, none, ⟨"done", [], none⟩⟩
    [Frame.textDelta "x"] (Or.inl rfl)
    ⟨StreamStatus.streaming, none, ⟨"", [], none⟩⟩ "He" "llo"
    [Frame.textDelta "more", Frame.completedFrame] rfl

/-! ## Navigation theorems -/

/-- Claim C6: while the UI-session streaming flag is set, both
`handleNewChat` and `handleChatSelect` surface exactly one user-facing
notice and leave the whole navigation state — `currentChatId`, the chat
list, the streaming flag, sidebar, route — unchanged. -/
theorem navigation_rejects_during_stream (s : NavState) (w : Nat)
    (cid : String) (h : s.isStreaming = true) :
    (handleNewChat s).1 = s ∧ (handleNewChat s).2.length = 1 ∧
    (handleChatSelect w s cid).1 = s ∧
    (handleChatSelect w s cid).2.length = 1 := by
  simp [handleNewChat, handleChatSelect, h]

/-- Witness for claim C6 at a concrete streaming state. -/
theorem navigation_rejects_during_stream_witness :
    (handleNewChat ⟨some "chat-1", [], true, true, "/chat"⟩).1 =
      ⟨some "chat-1", [], true, true, "/chat"⟩ ∧
    (handleNewChat ⟨some "chat-1", [], true, true, "/chat"⟩).2.length = 1 ∧
    (handleChatSelect 500 ⟨some "chat-1", [], true, true, "/chat"⟩
      "chat-2").1 = ⟨some "chat-1", [], true, true, "/chat"⟩ ∧
    (handleChatSelect 500 ⟨some "chat-1", [], true, true, "/chat"⟩
      "chat-2").2.length = 1 :=
  navigation_rejects_during_stream ⟨some "chat-1", [], true, true, "/chat"⟩
    500 "chat-2" rfl

/-! ## Config loader theorems -/

/-- Claim C10: after one `loadConfig` resolves — from a successful fetch,
a non-ok response, or a thrown error — the config is cached, and every
subsequent `loadConfig` before a `resetConfig` returns the same value
without fetching; `getConfig` returns the cached value exactly when a
`loadConfig` call has completed and throws otherwise. -/
theorem loadConfig_memoized (f1 f2 : FetchResult) :
    ((loadConfig (loadConfig none f1).cache f2).result =
        (loadConfig none f1).result ∧
      (loadConfig (loadConfig none f1).cache f2).cache =
        (loadConfig none f1).cache ∧
      (loadConfig (loadConfig none f1).cache f2).fetched = false) ∧
    (loadConfig none f1).cache = some (loadConfig none f1).result ∧
    getConfig (loadConfig none f1).cache =
      Except.ok (loadConfig none f1).result ∧
    (∀ (st : Option AppConfig) (c : AppConfig),
      getConfig st = Except.ok c ↔ st = some c) ∧
    getConfig (resetConfig (loadConfig none f1).cache) =
      Except.error "Config not loaded yet. Call loadConfig() first." := by
  refine ⟨?_, ?_, ?_, ?_, rfl⟩
  · cases f1 <;> simp [loadConfig]
  · cases f1 <;> rfl
  · cases f1 <;> rfl
  · intro st c
    cases st <;> simp [getConfig]

end GenAIApp
